/-
Verification of the `Slot` draw engine (random-name-picker, `src/assets/js/app.ts`).

The engine is shallowly embedded: the `Slot` class instance fields become the
`SlotState` structure, DOM availability (`reelContainer`/`reelAnimation`)
becomes the `reelOk` flag, the rendered reel children become `reelItems`, and
JavaScript's `string | undefined` runtime values become `Option String`.
`Math.random() * n | 0` is modelled by an arbitrary draw stream
`r : Nat → Nat` reduced modulo the live range `n`, so theorems quantify over
every possible sequence of random draws.  Caller-visible callback invocations
and the internally ordered side effects of `spin()` are recorded as a
`SlotEvent` trace in program order.
-/
import Mathlib

set_option maxHeartbeats 1000000
set_option linter.unusedSectionVars false

namespace RandomNamePicker

/-- Events recorded in program order during engine operations.  The four
callback constructors correspond to the caller-supplied hooks named in the
page script (`onSpinStart`, `onSpinNameStart`, `onSpinNameEnd`, `onSpinEnd`,
`onNameListChanged`); the remaining constructors mark internal milestones of
`spin()`: appending the reel items (line 550), the winner-removal/history
block (lines 556-570), and the resolution of the animation-finish promise
(line 582). -/
inductive SlotEvent where
  | spinStart
  | spinNameStart
  | spinNameEnd
  | spinEnd
  | nameListChanged
  | reelMutation
  | listHistoryMutation
  | animationFinish
deriving Repr, DecidableEq

/-- Whether an event is an invocation of a caller-supplied callback (as
opposed to an internal milestone marker). -/
def SlotEvent.isCallback : SlotEvent → Bool
  | .spinStart => true
  | .spinNameStart => true
  | .spinNameEnd => true
  | .spinEnd => true
  | .nameListChanged => true
  | .reelMutation => false
  | .listHistoryMutation => false
  | .animationFinish => false

/-- The callback invocations contained in a trace, in order. -/
def callbacksOf (evs : List SlotEvent) : List SlotEvent :=
  evs.filter SlotEvent.isCallback

/-- The mutable fields of a `Slot` instance (`app.ts` lines 249-284).
`currentPlayer : Option String` models the TS `string` field which at runtime
can also hold `undefined` (assigned from an out-of-bounds array read);
`reelOk` models availability of both `reelContainer` and `reelAnimation`, and
`reelItems` the children of the reel container. -/
structure SlotState where
  nameList : List String
  currentPlayer : Option String
  luckyMoneyList : List String
  drawHistory : List String
  havePreviousWinner : Bool
  maxReelItems : Nat
  shouldRemoveWinner : Bool
  reelOk : Bool
  reelItems : List String
deriving Repr, DecidableEq

/-- JS template-literal rendering of a possibly-`undefined` string:
`undefined` interpolates as the text `"undefined"`. -/
def jsShow (v : Option String) : String :=
  match v with
  | none => "undefined"
  | some s => s

/-- The end-of-round sentinel pushed to the draw history (line 568). -/
def endSentinel : String := "-------END-------"

/-- `list.splice(list.findIndex(x => x === target), 1)` as used at lines
557-562: remove the first element equal to `target`; when no element matches
(`findIndex` returns `-1`, in particular when `target` is `undefined`),
`splice(-1, 1)` removes the last element (and is a no-op on an empty list). -/
def spliceRemoveFirst (l : List String) (target : Option String) : List String :=
  match target with
  | none => l.dropLast
  | some x =>
    match l.findIdx? (fun y => y == x) with
    | some i => l.eraseIdx i
    | none => l.dropLast

variable {α : Type} [Inhabited α]

/-- The loop of `Slot.shuffleNames` (lines 411-425), with the `keys` array
threaded explicitly and only its live prefix (the first `n` entries) kept:
after `result.push(array[keys[i]]); n -= 1; swap keys[n] keys[i]` the live
prefix is `(keys.set i keys[n-1]).take (n-1)`.  The source array is threaded
through and returned so that absence of mutation is a provable frame
condition.  `fuel` bounds the iteration count; the loop guard
`k < array.length && n > 0` is tested each round as in the source. -/
def shuffleGo (r : Nat → Nat) (arr : List α) : Nat → Nat → List Nat → List α × List α
  | 0, _, _ => (arr, [])
  | fuel + 1, k, keys =>
    if k < arr.length ∧ 0 < keys.length then
      let n := keys.length
      let i := r k % n
      let key := keys.getD i 0
      let rest := shuffleGo r arr fuel (k + 1) ((keys.set i (keys.getD (n - 1) 0)).take (n - 1))
      (rest.1, arr.getD key default :: rest.2)
    else (arr, [])

/-- `Slot.shuffleNames` (lines 411-425): Fisher-Yates-style selection driven
by the draw stream `r`.  Returns the (unmutated) input array together with the
shuffled result, mirroring `const keys = Object.keys(array)` by
`List.range arr.length`. -/
def shuffleNames (r : Nat → Nat) (arr : List α) : List α × List α :=
  shuffleGo r arr arr.length 0 (List.range arr.length)

/-- `Slot.shuffleLuckyMoneys` (lines 433-447): textually identical duplicate
of `shuffleNames` in the source. -/
def shuffleLuckyMoneys (r : Nat → Nat) (arr : List α) : List α × List α :=
  shuffleGo r arr arr.length 0 (List.range arr.length)

/-- The padding loop `while (xs.length && xs.length < maxReelItems) xs = [...xs, ...xs]`
(lines 484-486 and 531-533).  `fuel` bounds iterations; since a non-empty
list at least doubles each round, `fuel = target` always suffices. -/
def padWhile : Nat → List α → Nat → List α
  | 0, l, _ => l
  | fuel + 1, l, target =>
    if l.length ≠ 0 ∧ l.length < target then padWhile fuel (l ++ l) target else l

/-- `xs.slice(0, maxReelItems - Number(havePreviousWinner))` (lines 488 and
535-538).  For `maxReelItems ≥ 1` the bound is non-negative and `slice` is a
`take`; in the degenerate `maxReelItems = 0` case with a previous winner the
JS bound is `-1`, which drops the last element. -/
def truncateReel (l : List α) (maxReelItems : Nat) (hasPrev : Bool) : List α :=
  if maxReelItems = 0 ∧ hasPrev = true then l.dropLast
  else l.take (maxReelItems - (if hasPrev then 1 else 0))

/-- The padded-and-truncated winner sequence built for names in
`Slot.spinName` (lines 482-488): shuffle, double until long enough,
truncate. -/
def buildNameSequence (r : Nat → Nat) (pool : List String) (maxReelItems : Nat)
    (hasPrev : Bool) : List String :=
  truncateReel (padWhile maxReelItems (shuffleNames r pool).2 maxReelItems) maxReelItems hasPrev

/-- The padded-and-truncated winner sequence built for prizes in `Slot.spin`
(lines 530-538), using the duplicate shuffle routine. -/
def buildPrizeSequence (r : Nat → Nat) (pool : List String) (maxReelItems : Nat)
    (hasPrev : Bool) : List String :=
  truncateReel (padWhile maxReelItems (shuffleLuckyMoneys r pool).2 maxReelItems) maxReelItems hasPrev

/-- `Slot.spinName` (lines 475-506) restricted to engine state: on an empty
name list it reports failure and changes nothing; otherwise it builds the
winner sequence and stores its last element (`randomNames[randomNames.length - 1]`,
which is `undefined` when the sequence is empty) as the current player.  The
DOM "Selecting..." cycling only writes to a text element and is outside the
engine state.  `spinName` invokes no callbacks. -/
def spinName (r : Nat → Nat) (s : SlotState) : SlotState × Bool :=
  if s.nameList.length = 0 then (s, false)
  else
    ({ s with currentPlayer :=
        (buildNameSequence r s.nameList s.maxReelItems s.havePreviousWinner).getLast? }, true)

/-- The winner-removal/history block of `Slot.spin` (lines 556-570), executed
when `shouldRemoveWinner` is set: splice the current player out of the name
list and the winning prize out of the prize list, push the formatted history
entry, and push the sentinel when both lists have just become empty. -/
def applyRemoval (s : SlotState) (playerLuckyMoney : Option String) : SlotState :=
  let names2 := spliceRemoveFirst s.nameList s.currentPlayer
  let prizes2 := spliceRemoveFirst s.luckyMoneyList playerLuckyMoney
  let hist1 := s.drawHistory ++ [jsShow s.currentPlayer ++ " - " ++ jsShow playerLuckyMoney]
  let hist2 := if names2.length = 0 ∧ prizes2.length = 0 then hist1 ++ [endSentinel] else hist1
  { s with nameList := names2, luckyMoneyList := prizes2, drawHistory := hist2 }

/-- Trimming of the reel after the animation (lines 588-590): all children
except the last are removed; then `havePreviousWinner` is set (line 592). -/
def trimReel (s : SlotState) : SlotState :=
  { s with reelItems := s.reelItems.drop (s.reelItems.length - 1), havePreviousWinner := true }

/-- Result of a `spin()` call: the resolved boolean, the post-call engine
state, the event trace in program order, and the `console.log('Result: ...')`
pair of declared winner name and prize (line 553), `none` when that line is
never reached. -/
structure SpinResult where
  success : Bool
  state : SlotState
  events : List SlotEvent
  resultLog : Option (Option String × Option String)
deriving Repr, DecidableEq

/-- The part of `Slot.spin` after validation, `spinName`, and the
reel-availability check (lines 529-597): build the prize sequence, take its
last element as the winning prize, append the sequence to the reel, run the
removal/history block if enabled, await the animation, trim the reel, mark
the previous winner, fire `onSpinEnd`, resolve `true`. -/
def spinCore (r2 : Nat → Nat) (s1 : SlotState) : SpinResult :=
  let seq := buildPrizeSequence r2 s1.luckyMoneyList s1.maxReelItems s1.havePreviousWinner
  let playerLuckyMoney := seq.getLast?
  let s2 := { s1 with reelItems := s1.reelItems ++ seq }
  let s3 := if s1.shouldRemoveWinner then applyRemoval s2 playerLuckyMoney else s2
  { success := true
    state := trimReel s3
    events := [SlotEvent.spinStart, SlotEvent.reelMutation]
      ++ (if s1.shouldRemoveWinner then [SlotEvent.listHistoryMutation] else [])
      ++ [SlotEvent.animationFinish, SlotEvent.spinEnd]
    resultLog := some (s1.currentPlayer, playerLuckyMoney) }

/-- `Slot.spin` (lines 512-598).  Both lists empty: log an error and resolve
`false` with no callbacks and no state change.  Otherwise fire `onSpinStart`,
run `spinName` (its boolean result is discarded by the source), then abort
with `false` if the reel container or animation is unavailable, else proceed
with `spinCore`.  Note the source never fires `onSpinNameStart` or
`onSpinNameEnd`: the `SlotConfigurations` interface does not carry them and
`spinName` calls no hooks. -/
def spin (r1 r2 : Nat → Nat) (s : SlotState) : SpinResult :=
  if s.nameList.length = 0 ∧ s.luckyMoneyList.length = 0 then
    { success := false, state := s, events := [], resultLog := none }
  else
    let s1 := (spinName r1 s).1
    if s1.reelOk = true then spinCore r2 s1
    else { success := false, state := s1, events := [SlotEvent.spinStart], resultLog := none }

/-- The `names` setter (lines 340-355): replace the name list verbatim,
clear the reel surface, reset `havePreviousWinner`, and invoke
`onNameListChanged` once. -/
def setNames (s : SlotState) (names : List String) : SlotState × List SlotEvent :=
  ({ s with nameList := names, reelItems := [], havePreviousWinner := false },
   [SlotEvent.nameListChanged])

/-- The `luckyMoneys` setter (lines 373-375): replace the prize list only;
no reel clearing, no `havePreviousWinner` reset, no notification. -/
def setLuckyMoneys (s : SlotState) (luckyMoneys : List String) : SlotState × List SlotEvent :=
  ({ s with luckyMoneyList := luckyMoneys }, [])

/-! ### Frame and permutation properties of the shuffle loop -/

/-- The shuffle loop returns its source array unchanged: no branch writes to
`arr`, matching the source, which only reads `array[key]`. -/
theorem shuffleGo_fst (r : Nat → Nat) (arr : List α) :
    ∀ fuel k keys, (shuffleGo r arr fuel k keys).1 = arr := by
  intro fuel
  induction fuel with
  | zero => intro k keys; rfl
  | succ fuel ih =>
    intro k keys
    unfold shuffleGo
    split
    · simpa using ih (k + 1) _
    · rfl

/-- One step of the key bookkeeping is a permutation: extracting the key at
position `i` and keeping the swapped live prefix loses and duplicates
nothing. -/
theorem perm_pick {β : Type} (d : β) (ys : List β) (i : Nat) (hi : i < ys.length) :
    ys.Perm (ys.getD i d ::
      (ys.set i (ys.getD (ys.length - 1) d)).take (ys.length - 1)) := by
  have hne : ys ≠ [] := by
    intro h; subst h; simp at hi
  obtain ⟨F, a, hFa⟩ : ∃ F a, ys = F ++ [a] := by
    refine ⟨ys.dropLast, ys.getLast hne, ?_⟩
    exact (List.dropLast_append_getLast hne).symm
  subst hFa
  have hlen : (F ++ [a]).length = F.length + 1 := by simp
  have hlast : (F ++ [a]).getD ((F ++ [a]).length - 1) d = a := by
    rw [hlen]
    simp [List.getD_eq_getElem?_getD, List.getElem?_eq_getElem]
  rw [hlast, hlen]
  simp only [Nat.add_sub_cancel]
  rcases Nat.lt_or_ge i F.length with hiF | hiF
  · -- the extracted key lies in the initial segment
    have hgetD : (F ++ [a]).getD i d = F[i] := by
      have hib : i < (F ++ [a]).length := by simp; omega
      rw [List.getD_eq_getElem?_getD, List.getElem?_eq_getElem hib,
        List.getElem_append_left hiF]
      rfl
    rw [hgetD, List.set_append_left _ _ hiF]
    have hlen2 : (F.set i a).length = F.length := by simp
    rw [List.take_left' hlen2]
    have hF : F = F.take i ++ F[i] :: F.drop (i + 1) := by
      conv_lhs => rw [← List.take_append_drop i F]
      rw [List.drop_eq_getElem_cons hiF]
    have hset : F.set i a = F.take i ++ a :: F.drop (i + 1) :=
      List.set_eq_take_cons_drop a hiF
    refine List.Perm.trans (List.perm_append_comm) ?_
    rw [List.singleton_append, hset]
    conv_lhs => rw [hF]
    refine List.Perm.trans (List.Perm.cons a List.perm_middle) ?_
    refine List.Perm.trans (List.Perm.swap _ _ _) ?_
    exact List.Perm.cons _ List.perm_middle.symm
  · -- the extracted key is the final position
    have hiEq : i = F.length := by omega
    subst hiEq
    have hgetD : (F ++ [a]).getD F.length d = a := by
      have hib : F.length < (F ++ [a]).length := by simp
      rw [List.getD_eq_getElem?_getD, List.getElem?_eq_getElem hib]
      simp
    rw [hgetD, List.set_append_right _ _ (Nat.le_refl _)]
    simp only [Nat.sub_self]
    have hone : ([a].set 0 a) = [a] := rfl
    rw [hone, List.take_left]
    exact List.Perm.trans List.perm_append_comm (by rw [List.singleton_append])

/-- The shuffle loop's output is a permutation of the source values indexed
by the live keys. -/
theorem shuffleGo_perm (r : Nat → Nat) (arr : List α) :
    ∀ fuel k keys, k + keys.length = arr.length → keys.length ≤ fuel →
      (shuffleGo r arr fuel k keys).2.Perm
        (keys.map (fun j => arr.getD j default)) := by
  intro fuel
  induction fuel with
  | zero =>
    intro k keys hk hle
    have hkeys : keys = [] := List.length_eq_zero.mp (Nat.le_zero.mp hle)
    subst hkeys
    simp [shuffleGo]
  | succ fuel ih =>
    intro k keys hk hle
    unfold shuffleGo
    by_cases hg : k < arr.length ∧ 0 < keys.length
    · rw [if_pos hg]
      simp only []
      have hi : r k % keys.length < keys.length := Nat.mod_lt _ hg.2
      have hperm := perm_pick 0 keys (r k % keys.length) hi
      have hk' : (k + 1) +
          ((keys.set (r k % keys.length) (keys.getD (keys.length - 1) 0)).take
            (keys.length - 1)).length = arr.length := by
        simp only [List.length_take, List.length_set]
        omega
      have hle' : ((keys.set (r k % keys.length) (keys.getD (keys.length - 1) 0)).take
          (keys.length - 1)).length ≤ fuel := by
        simp only [List.length_take, List.length_set]
        omega
      have ihh := ih (k + 1) _ hk' hle'
      exact (ihh.cons _).trans (hperm.map (fun j => arr.getD j default)).symm
    · rw [if_neg hg]
      have hkeys : keys = [] := by
        rcases Nat.eq_zero_or_pos keys.length with h0 | hpos
        · exact List.length_eq_zero.mp h0
        · exact absurd ⟨by omega, hpos⟩ hg
      subst hkeys
      simp

/-- `(range l.length).map (l.getD · default) = l`. -/
theorem map_range_getD (l : List α) :
    (List.range l.length).map (fun j => l.getD j default) = l := by
  apply List.ext_getElem
  · simp
  · intro i h1 h2
    simp [List.getD_eq_getElem?_getD, List.getElem?_eq_getElem h2]

/-- `shuffleNames` leaves its input untouched and returns a permutation. -/
theorem shuffleNames_spec (r : Nat → Nat) (arr : List α) :
    (shuffleNames r arr).1 = arr ∧ (shuffleNames r arr).2.Perm arr := by
  constructor
  · exact shuffleGo_fst r arr _ _ _
  · have h := shuffleGo_perm r arr arr.length 0 (List.range arr.length)
      (by simp) (by simp)
    rwa [map_range_getD] at h

/-- `shuffleLuckyMoneys` leaves its input untouched and returns a
permutation. -/
theorem shuffleLuckyMoneys_spec (r : Nat → Nat) (arr : List α) :
    (shuffleLuckyMoneys r arr).1 = arr ∧ (shuffleLuckyMoneys r arr).2.Perm arr := by
  constructor
  · exact shuffleGo_fst r arr _ _ _
  · have h := shuffleGo_perm r arr arr.length 0 (List.range arr.length)
      (by simp) (by simp)
    rwa [map_range_getD] at h

/-! ### Padding and truncation -/

theorem padWhile_nil (fuel target : Nat) : padWhile fuel ([] : List α) target = [] := by
  cases fuel <;> simp [padWhile]

/-- With enough fuel (one unit per missing element suffices, since a
non-empty list grows by at least one element per round), the padding loop
reaches the target length, only repeats elements of the input, and stays
non-empty. -/
theorem padWhile_spec :
    ∀ (fuel : Nat) (l : List α) (target : Nat), l ≠ [] → target ≤ l.length + fuel →
      target ≤ (padWhile fuel l target).length ∧
      (∀ x ∈ padWhile fuel l target, x ∈ l) ∧ padWhile fuel l target ≠ [] := by
  intro fuel
  induction fuel with
  | zero =>
    intro l target hne hle
    simp only [padWhile]
    exact ⟨by omega, fun x hx => hx, hne⟩
  | succ fuel ih =>
    intro l target hne hle
    unfold padWhile
    by_cases hc : l.length ≠ 0 ∧ l.length < target
    · rw [if_pos hc]
      have hlpos : 1 ≤ l.length := by omega
      have happ : (l ++ l) ≠ [] := by
        intro h
        rcases List.append_eq_nil.mp h with ⟨h1, _⟩
        exact hne h1
      have hrec := ih (l ++ l) target happ (by simp; omega)
      refine ⟨hrec.1, fun x hx => ?_, hrec.2.2⟩
      rcases List.mem_append.mp (hrec.2.1 x hx) with h | h <;> exact h
    · rw [if_neg hc]
      have hlen : target ≤ l.length := by
        rcases Decidable.not_and_iff_or_not.mp hc with h | h
        · exact absurd (by simpa using List.length_pos.mpr hne) (by omega)
        · omega
      exact ⟨hlen, fun x hx => hx, hne⟩

theorem truncateReel_nil (m : Nat) (b : Bool) : truncateReel ([] : List α) m b = [] := by
  unfold truncateReel
  split <;> simp

theorem truncateReel_of_pos (l : List α) (m : Nat) (b : Bool) (hm : 1 ≤ m) :
    truncateReel l m b = l.take (m - (if b then 1 else 0)) := by
  unfold truncateReel
  rw [if_neg]
  intro h
  omega

/-! ### The winner-sequence builders -/

theorem buildNameSequence_nil (r : Nat → Nat) (m : Nat) (b : Bool) :
    buildNameSequence r [] m b = [] := by
  unfold buildNameSequence
  have h : (shuffleNames r ([] : List String)).2 = [] :=
    (shuffleNames_spec r []).2.eq_nil
  rw [h, padWhile_nil, truncateReel_nil]

theorem buildPrizeSequence_nil (r : Nat → Nat) (m : Nat) (b : Bool) :
    buildPrizeSequence r [] m b = [] := by
  unfold buildPrizeSequence
  have h : (shuffleLuckyMoneys r ([] : List String)).2 = [] :=
    (shuffleLuckyMoneys_spec r []).2.eq_nil
  rw [h, padWhile_nil, truncateReel_nil]

theorem buildNameSequence_length (r : Nat → Nat) (pool : List String) (m : Nat) (b : Bool)
    (hne : pool ≠ []) (hm : 1 ≤ m) :
    (buildNameSequence r pool m b).length = m - (if b then 1 else 0) := by
  unfold buildNameSequence
  have hperm := (shuffleNames_spec r pool).2
  have hsne : (shuffleNames r pool).2 ≠ [] := by
    intro h
    rw [h] at hperm
    exact hne hperm.symm.eq_nil
  have hspec := padWhile_spec m _ m hsne (by omega)
  rw [truncateReel_of_pos _ _ _ hm, List.length_take]
  have hble : m - (if b then 1 else 0) ≤ (padWhile m (shuffleNames r pool).2 m).length := by
    cases b <;> simp <;> omega
  omega

theorem buildPrizeSequence_length (r : Nat → Nat) (pool : List String) (m : Nat) (b : Bool)
    (hne : pool ≠ []) (hm : 1 ≤ m) :
    (buildPrizeSequence r pool m b).length = m - (if b then 1 else 0) := by
  unfold buildPrizeSequence
  have hperm := (shuffleLuckyMoneys_spec r pool).2
  have hsne : (shuffleLuckyMoneys r pool).2 ≠ [] := by
    intro h
    rw [h] at hperm
    exact hne hperm.symm.eq_nil
  have hspec := padWhile_spec m _ m hsne (by omega)
  rw [truncateReel_of_pos _ _ _ hm, List.length_take]
  have hble : m - (if b then 1 else 0) ≤ (padWhile m (shuffleLuckyMoneys r pool).2 m).length := by
    cases b <;> simp <;> omega
  omega

theorem buildNameSequence_mem (r : Nat → Nat) (pool : List String) (m : Nat) (b : Bool)
    (hm : 1 ≤ m) : ∀ x ∈ buildNameSequence r pool m b, x ∈ pool := by
  intro x hx
  by_cases hne : pool = []
  · subst hne
    rw [buildNameSequence_nil] at hx
    simp at hx
  · unfold buildNameSequence at hx
    rw [truncateReel_of_pos _ _ _ hm] at hx
    have hx2 := List.mem_of_mem_take hx
    have hperm := (shuffleNames_spec r pool).2
    have hsne : (shuffleNames r pool).2 ≠ [] := by
      intro h
      rw [h] at hperm
      exact hne hperm.symm.eq_nil
    have hspec := padWhile_spec m _ m hsne (by omega)
    exact hperm.mem_iff.mp (hspec.2.1 x hx2)

theorem buildPrizeSequence_mem (r : Nat → Nat) (pool : List String) (m : Nat) (b : Bool)
    (hm : 1 ≤ m) : ∀ x ∈ buildPrizeSequence r pool m b, x ∈ pool := by
  intro x hx
  by_cases hne : pool = []
  · subst hne
    rw [buildPrizeSequence_nil] at hx
    simp at hx
  · unfold buildPrizeSequence at hx
    rw [truncateReel_of_pos _ _ _ hm] at hx
    have hx2 := List.mem_of_mem_take hx
    have hperm := (shuffleLuckyMoneys_spec r pool).2
    have hsne : (shuffleLuckyMoneys r pool).2 ≠ [] := by
      intro h
      rw [h] at hperm
      exact hne hperm.symm.eq_nil
    have hspec := padWhile_spec m _ m hsne (by omega)
    exact hperm.mem_iff.mp (hspec.2.1 x hx2)

theorem buildNameSequence_ne_nil (r : Nat → Nat) (pool : List String) (m : Nat) (b : Bool)
    (hne : pool ≠ []) (h1 : 1 ≤ m - (if b then 1 else 0)) :
    buildNameSequence r pool m b ≠ [] := by
  have hm : 1 ≤ m := by cases b <;> simp at h1 <;> omega
  have hlen := buildNameSequence_length r pool m b hne hm
  intro h
  rw [h] at hlen
  simp at hlen
  omega

theorem buildPrizeSequence_ne_nil (r : Nat → Nat) (pool : List String) (m : Nat) (b : Bool)
    (hne : pool ≠ []) (h1 : 1 ≤ m - (if b then 1 else 0)) :
    buildPrizeSequence r pool m b ≠ [] := by
  have hm : 1 ≤ m := by cases b <;> simp at h1 <;> omega
  have hlen := buildPrizeSequence_length r pool m b hne hm
  intro h
  rw [h] at hlen
  simp at hlen
  omega

/-! ### The splice-based removal -/

/-- When the target value occurs in the list, the splice removes exactly the
first occurrence, i.e. behaves as `List.erase`. -/
theorem spliceRemoveFirst_eq_erase (l : List String) (x : String) (hx : x ∈ l) :
    spliceRemoveFirst l (some x) = l.erase x := by
  induction l with
  | nil => simp at hx
  | cons a t ih =>
    simp only [spliceRemoveFirst]
    rw [List.findIdx?_cons]
    by_cases hax : (a == x) = true
    · rw [if_pos hax]
      simp only [List.eraseIdx_cons_zero]
      rw [List.erase_cons, if_pos hax]
    · rw [if_neg hax]
      have hxa : a ≠ x := fun h => hax (beq_iff_eq.mpr h)
      have hxt : x ∈ t := by
        rcases List.mem_cons.mp hx with h | h
        · exact absurd h.symm hxa
        · exact h
      rw [List.findIdx?_succ]
      cases hft : t.findIdx? (fun y => y == x) with
      | none =>
        exfalso
        have hall := List.findIdx?_eq_none_iff.mp hft
        have := hall x hxt
        simp at this
      | some j =>
        simp only [Option.map_some']
        rw [List.eraseIdx_cons_succ, List.erase_cons, if_neg (by simpa using hxa)]
        have hrec := ih hxt
        simp only [spliceRemoveFirst] at hrec
        rw [hft] at hrec
        have hstep : t.eraseIdx j = t.erase x := hrec
        rw [hstep]

/-- Removal of a present winner decrements its occurrence count by exactly
one. -/
theorem count_spliceRemoveFirst (l : List String) (x : String) (hx : x ∈ l) :
    (spliceRemoveFirst l (some x)).count x + 1 = l.count x := by
  rw [spliceRemoveFirst_eq_erase l x hx, List.count_erase_self]
  have hpos : 0 < l.count x := List.count_pos_iff.mpr hx
  omega

/-! ### Behaviour of `spinName` and `spin` -/

theorem spinName_fst_of_ne (r : Nat → Nat) (s : SlotState) (h : s.nameList ≠ []) :
    (spinName r s).1 = { s with currentPlayer :=
      (buildNameSequence r s.nameList s.maxReelItems s.havePreviousWinner).getLast? } := by
  unfold spinName
  rw [if_neg]
  simpa using h

theorem spinName_fst_of_nil (r : Nat → Nat) (s : SlotState) (h : s.nameList = []) :
    (spinName r s).1 = s := by
  unfold spinName
  rw [if_pos]
  simp [h]

theorem spinName_reelOk (r : Nat → Nat) (s : SlotState) :
    (spinName r s).1.reelOk = s.reelOk := by
  unfold spinName
  split <;> rfl

theorem spinName_nameList (r : Nat → Nat) (s : SlotState) :
    (spinName r s).1.nameList = s.nameList := by
  unfold spinName
  split <;> rfl

theorem spinName_luckyMoneyList (r : Nat → Nat) (s : SlotState) :
    (spinName r s).1.luckyMoneyList = s.luckyMoneyList := by
  unfold spinName
  split <;> rfl

theorem spinName_maxReelItems (r : Nat → Nat) (s : SlotState) :
    (spinName r s).1.maxReelItems = s.maxReelItems := by
  unfold spinName
  split <;> rfl

theorem spinName_havePreviousWinner (r : Nat → Nat) (s : SlotState) :
    (spinName r s).1.havePreviousWinner = s.havePreviousWinner := by
  unfold spinName
  split <;> rfl

theorem spinName_shouldRemoveWinner (r : Nat → Nat) (s : SlotState) :
    (spinName r s).1.shouldRemoveWinner = s.shouldRemoveWinner := by
  unfold spinName
  split <;> rfl

theorem spinName_drawHistory (r : Nat → Nat) (s : SlotState) :
    (spinName r s).1.drawHistory = s.drawHistory := by
  unfold spinName
  split <;> rfl

/-- `spin` on a validated state with an available reel runs `spinCore` on the
post-`spinName` state. -/
theorem spin_eq_spinCore (r1 r2 : Nat → Nat) (s : SlotState)
    (hv : ¬(s.nameList.length = 0 ∧ s.luckyMoneyList.length = 0))
    (hreel : s.reelOk = true) :
    spin r1 r2 s = spinCore r2 (spinName r1 s).1 := by
  unfold spin
  rw [if_neg hv]
  simp only [spinName_reelOk, hreel, if_pos]

theorem spinCore_success (r2 : Nat → Nat) (s1 : SlotState) :
    (spinCore r2 s1).success = true := rfl

theorem spinCore_events (r2 : Nat → Nat) (s1 : SlotState) :
    (spinCore r2 s1).events =
      [SlotEvent.spinStart, SlotEvent.reelMutation]
        ++ (if s1.shouldRemoveWinner then [SlotEvent.listHistoryMutation] else [])
        ++ [SlotEvent.animationFinish, SlotEvent.spinEnd] := rfl

theorem spinCore_resultLog (r2 : Nat → Nat) (s1 : SlotState) :
    (spinCore r2 s1).resultLog = some (s1.currentPlayer,
      (buildPrizeSequence r2 s1.luckyMoneyList s1.maxReelItems
        s1.havePreviousWinner).getLast?) := rfl

theorem spinCore_state (r2 : Nat → Nat) (s1 : SlotState) :
    (spinCore r2 s1).state =
      trimReel (if s1.shouldRemoveWinner then
          applyRemoval
            { s1 with reelItems := (s1.reelItems ++ buildPrizeSequence r2 s1.luckyMoneyList s1.maxReelItems s1.havePreviousWinner) }
            ((buildPrizeSequence r2 s1.luckyMoneyList s1.maxReelItems s1.havePreviousWinner).getLast?)
        else
          { s1 with reelItems := (s1.reelItems ++ buildPrizeSequence r2 s1.luckyMoneyList s1.maxReelItems s1.havePreviousWinner) }) := rfl

theorem trimReel_nameList (s : SlotState) : (trimReel s).nameList = s.nameList := rfl

theorem trimReel_luckyMoneyList (s : SlotState) :
    (trimReel s).luckyMoneyList = s.luckyMoneyList := rfl

theorem trimReel_drawHistory (s : SlotState) :
    (trimReel s).drawHistory = s.drawHistory := rfl

theorem trimReel_currentPlayer (s : SlotState) :
    (trimReel s).currentPlayer = s.currentPlayer := rfl

theorem applyRemoval_nameList (s : SlotState) (plm : Option String) :
    (applyRemoval s plm).nameList = spliceRemoveFirst s.nameList s.currentPlayer := rfl

theorem applyRemoval_luckyMoneyList (s : SlotState) (plm : Option String) :
    (applyRemoval s plm).luckyMoneyList = spliceRemoveFirst s.luckyMoneyList plm := rfl

theorem applyRemoval_currentPlayer (s : SlotState) (plm : Option String) :
    (applyRemoval s plm).currentPlayer = s.currentPlayer := rfl

theorem applyRemoval_drawHistory (s : SlotState) (plm : Option String) :
    (applyRemoval s plm).drawHistory =
      (if (spliceRemoveFirst s.nameList s.currentPlayer).length = 0 ∧
          (spliceRemoveFirst s.luckyMoneyList plm).length = 0
       then (s.drawHistory ++ [jsShow s.currentPlayer ++ " - " ++ jsShow plm]) ++ [endSentinel]
       else s.drawHistory ++ [jsShow s.currentPlayer ++ " - " ++ jsShow plm]) := rfl

/-- On a non-empty name list with an available reel, `spin` is `spinCore`
applied to the state whose current player has been set to the last element of
the freshly built name sequence. -/
theorem spin_success_unfold (r1 r2 : Nat → Nat) (s : SlotState)
    (hn : s.nameList ≠ []) (hreel : s.reelOk = true) :
    spin r1 r2 s = spinCore r2 { s with currentPlayer :=
      (buildNameSequence r1 s.nameList s.maxReelItems s.havePreviousWinner).getLast? } := by
  have hv : ¬(s.nameList.length = 0 ∧ s.luckyMoneyList.length = 0) :=
    fun h => hn (List.length_eq_zero.mp h.1)
  rw [spin_eq_spinCore r1 r2 s hv hreel, spinName_fst_of_ne r1 s hn]

/-- When the one-element pool `[x]` feeds the name-sequence builder and the
truncated length is positive, the last element is necessarily `x`. -/
theorem buildNameSequence_singleton_getLast (r : Nat → Nat) (x : String) (m : Nat) (b : Bool)
    (h1 : 1 ≤ m - (if b then 1 else 0)) :
    (buildNameSequence r [x] m b).getLast? = some x := by
  have hne := buildNameSequence_ne_nil r [x] m b (by simp) h1
  have hm : 1 ≤ m := by cases b <;> simp at h1 <;> omega
  rw [List.getLast?_eq_getLast_of_ne_nil hne]
  have hmem := List.getLast_mem hne
  have hx := buildNameSequence_mem r [x] m b hm _ hmem
  simp at hx
  rw [hx]

/-- Prize-side analogue of `buildNameSequence_singleton_getLast`. -/
theorem buildPrizeSequence_singleton_getLast (r : Nat → Nat) (x : String) (m : Nat) (b : Bool)
    (h1 : 1 ≤ m - (if b then 1 else 0)) :
    (buildPrizeSequence r [x] m b).getLast? = some x := by
  have hne := buildPrizeSequence_ne_nil r [x] m b (by simp) h1
  have hm : 1 ≤ m := by cases b <;> simp at h1 <;> omega
  rw [List.getLast?_eq_getLast_of_ne_nil hne]
  have hmem := List.getLast_mem hne
  have hx := buildPrizeSequence_mem r [x] m b hm _ hmem
  simp at hx
  rw [hx]

/-! ### Concrete states for witnesses and counterexamples -/

/-- A freshly configured engine with one participant and one prize. -/
def demoState : SlotState :=
  { nameList := ["A"], currentPlayer := some "", luckyMoneyList := ["X"],
    drawHistory := [], havePreviousWinner := false, maxReelItems := 5,
    shouldRemoveWinner := true, reelOk := true, reelItems := [] }

/-- The scenario state of the sentinel test: `names=["A"]`, `prizes=["X"]`,
empty history, removal enabled, default reel length 30. -/
def sentinelState : SlotState :=
  { nameList := ["A"], currentPlayer := some "", luckyMoneyList := ["X"],
    drawHistory := [], havePreviousWinner := false, maxReelItems := 30,
    shouldRemoveWinner := true, reelOk := true, reelItems := [] }

/-- A state with both pools empty but otherwise non-trivial content. -/
def emptyPoolsState : SlotState :=
  { nameList := [], currentPlayer := some "B", luckyMoneyList := [],
    drawHistory := ["B - Y"], havePreviousWinner := true, maxReelItems := 40,
    shouldRemoveWinner := true, reelOk := true, reelItems := ["B"] }

/-- A removal-enabled state with duplicate names and prizes. -/
def duplicateState : SlotState :=
  { nameList := ["A", "B", "A"], currentPlayer := some "", luckyMoneyList := ["X", "X", "Y"],
    drawHistory := [], havePreviousWinner := false, maxReelItems := 4,
    shouldRemoveWinner := true, reelOk := true, reelItems := [] }

/-- A removal-enabled state with participants but an empty prize list. -/
def noPrizeState : SlotState :=
  { nameList := ["A", "B"], currentPlayer := some "", luckyMoneyList := [],
    drawHistory := ["old"], havePreviousWinner := false, maxReelItems := 4,
    shouldRemoveWinner := true, reelOk := true, reelItems := [] }

/-! ### The claims -/

/-- C3: if `spin()` is called while both the participant list and the prize
list are empty, it resolves `false`, fires no callbacks, and mutates no
engine state — in particular the draw history is unchanged (the result state
is exactly the input state and the event trace is empty). -/
theorem spin_empty_pools_noop (r1 r2 : Nat → Nat) (s : SlotState)
    (h1 : s.nameList = []) (h2 : s.luckyMoneyList = []) :
    spin r1 r2 s = { success := false, state := s, events := [], resultLog := none } := by
  unfold spin
  rw [if_pos ⟨by simp [h1], by simp [h2]⟩]

/-- Witness for C3 at a concrete state with non-trivial history. -/
theorem spin_empty_pools_noop_witness :
    spin (fun _ => 0) (fun _ => 0) emptyPoolsState =
      { success := false, state := emptyPoolsState, events := [], resultLog := none } :=
  spin_empty_pools_noop (fun _ => 0) (fun _ => 0) emptyPoolsState rfl rfl

/-- C4: for every non-empty pool and every `maxReelItems ≥ 1`, the
padded-and-truncated winner sequence (both the name-side and the prize-side
builder) has length exactly `maxReelItems - (hasPreviousWinner ? 1 : 0)` and
every element belongs to the original pool; for an empty pool the result is
empty regardless of the requested length. -/
theorem winner_sequence_length_mem (r : Nat → Nat) (pool : List String) (m : Nat) (b : Bool) :
    (pool ≠ [] → 1 ≤ m →
      (buildNameSequence r pool m b).length = m - (if b then 1 else 0) ∧
      (∀ x ∈ buildNameSequence r pool m b, x ∈ pool) ∧
      (buildPrizeSequence r pool m b).length = m - (if b then 1 else 0) ∧
      (∀ x ∈ buildPrizeSequence r pool m b, x ∈ pool)) ∧
    (pool = [] → buildNameSequence r pool m b = [] ∧ buildPrizeSequence r pool m b = []) := by
  constructor
  · intro hne hm
    exact ⟨buildNameSequence_length r pool m b hne hm,
      buildNameSequence_mem r pool m b hm,
      buildPrizeSequence_length r pool m b hne hm,
      buildPrizeSequence_mem r pool m b hm⟩
  · intro hnil
    subst hnil
    exact ⟨buildNameSequence_nil r m b, buildPrizeSequence_nil r m b⟩

/-- Witness for C4: pool of two names padded to reel length 7 with a
previous winner present. -/
theorem winner_sequence_length_mem_witness :
    (buildNameSequence (fun k => k) ["a", "b"] 7 true).length = 7 - (if true then 1 else 0) ∧
    (∀ x ∈ buildNameSequence (fun k => k) ["a", "b"] 7 true, x ∈ ["a", "b"]) ∧
    (buildPrizeSequence (fun k => k) ["a", "b"] 7 true).length = 7 - (if true then 1 else 0) ∧
    (∀ x ∈ buildPrizeSequence (fun k => k) ["a", "b"] 7 true, x ∈ ["a", "b"]) :=
  (winner_sequence_length_mem (fun k => k) ["a", "b"] 7 true).1 (by decide) (by decide)

/-- C6: neither shuffle routine mutates its input array (the array threaded
through the call comes back unchanged), and each result is a permutation of
the input — same length and same multiset of elements. -/
theorem shuffle_no_mutation_perm {β : Type} [Inhabited β] (r : Nat → Nat) (arr : List β) :
    (shuffleNames r arr).1 = arr ∧
    (shuffleNames r arr).2.Perm arr ∧
    (shuffleNames r arr).2.length = arr.length ∧
    (shuffleLuckyMoneys r arr).1 = arr ∧
    (shuffleLuckyMoneys r arr).2.Perm arr ∧
    (shuffleLuckyMoneys r arr).2.length = arr.length :=
  ⟨(shuffleNames_spec r arr).1, (shuffleNames_spec r arr).2,
    (shuffleNames_spec r arr).2.length_eq,
    (shuffleLuckyMoneys_spec r arr).1, (shuffleLuckyMoneys_spec r arr).2,
    (shuffleLuckyMoneys_spec r arr).2.length_eq⟩

/-- C9: the participant-list setter replaces the list verbatim, clears the
reel, resets `havePreviousWinner` (even immediately after a completed spin),
fires the list-changed notification exactly once, and touches nothing else;
the prize-list setter replaces only the prize list, leaves
`havePreviousWinner` alone, and fires no notification. -/
theorem setters_effects (r1 r2 : Nat → Nat) (s : SlotState) (names prizes : List String) :
    (setNames s names).1.nameList = names ∧
    (setNames s names).1.havePreviousWinner = false ∧
    (setNames s names).1.reelItems = [] ∧
    (setNames s names).2 = [SlotEvent.nameListChanged] ∧
    (setNames s names).1.luckyMoneyList = s.luckyMoneyList ∧
    (setNames s names).1.drawHistory = s.drawHistory ∧
    (setNames s names).1.currentPlayer = s.currentPlayer ∧
    (setNames s names).1.maxReelItems = s.maxReelItems ∧
    (setNames s names).1.shouldRemoveWinner = s.shouldRemoveWinner ∧
    (setNames (spin r1 r2 s).state names).1.havePreviousWinner = false ∧
    (setLuckyMoneys s prizes).1.luckyMoneyList = prizes ∧
    (setLuckyMoneys s prizes).1.havePreviousWinner = s.havePreviousWinner ∧
    (setLuckyMoneys s prizes).2 = [] ∧
    (setLuckyMoneys s prizes).1.nameList = s.nameList ∧
    (setLuckyMoneys s prizes).1.drawHistory = s.drawHistory ∧
    (setLuckyMoneys s prizes).1.currentPlayer = s.currentPlayer ∧
    (setLuckyMoneys s prizes).1.reelItems = s.reelItems :=
  ⟨rfl, rfl, rfl, rfl, rfl, rfl, rfl, rfl, rfl, rfl, rfl, rfl, rfl, rfl, rfl, rfl, rfl⟩

/-- C1: evidence that a successful `spin()` invokes only `onSpinStart` and
`onSpinEnd`.  The caller-supplied `onSpinNameStart`/`onSpinNameEnd` hooks are
never invoked by the engine — the `SlotConfigurations` interface does not
carry them, the constructor discards them, and `spinName` calls no hooks —
so the recorded callback order of a successful spin is
`[onSpinStart, onSpinEnd]`, not the four-element sequence. -/
theorem spin_fires_only_start_and_end :
    (spin (fun _ => 0) (fun _ => 0) demoState).success = true ∧
    callbacksOf (spin (fun _ => 0) (fun _ => 0) demoState).events =
      [SlotEvent.spinStart, SlotEvent.spinEnd] ∧
    callbacksOf (spin (fun _ => 0) (fun _ => 0) demoState).events ≠
      [SlotEvent.spinStart, SlotEvent.spinNameStart, SlotEvent.spinNameEnd,
        SlotEvent.spinEnd] := by
  decide

/-- C2 counterexample: a successful removal-enabled `spin()` whose trace
shows the list/history mutation occurring strictly before the
animation-finish signal is observed — not after it, as claimed. -/
theorem spin_mutation_before_await_cx :
    demoState.shouldRemoveWinner = true ∧
    (spin (fun _ => 0) (fun _ => 0) demoState).success = true ∧
    (spin (fun _ => 0) (fun _ => 0) demoState).events =
      [SlotEvent.spinStart, SlotEvent.reelMutation, SlotEvent.listHistoryMutation,
        SlotEvent.animationFinish, SlotEvent.spinEnd] ∧
    (spin (fun _ => 0) (fun _ => 0) demoState).events.indexOf
        SlotEvent.listHistoryMutation <
      (spin (fun _ => 0) (fun _ => 0) demoState).events.indexOf
        SlotEvent.animationFinish := by
  decide

/-- C2 (amended): during every successful removal-enabled `spin()`, the
removal of the winner and the history append happen after the reel mutation
and before the animation-finish signal is observed (and hence before
`onSpinEnd` fires): the full trace is exactly
`[spinStart, reelMutation, listHistoryMutation, animationFinish, spinEnd]`. -/
theorem spin_mutation_between_reel_and_await (r1 r2 : Nat → Nat) (s : SlotState)
    (hrem : s.shouldRemoveWinner = true)
    (hv : ¬(s.nameList.length = 0 ∧ s.luckyMoneyList.length = 0))
    (hreel : s.reelOk = true) :
    (spin r1 r2 s).success = true ∧
    (spin r1 r2 s).events =
      [SlotEvent.spinStart, SlotEvent.reelMutation, SlotEvent.listHistoryMutation,
        SlotEvent.animationFinish, SlotEvent.spinEnd] := by
  rw [spin_eq_spinCore r1 r2 s hv hreel]
  refine ⟨rfl, ?_⟩
  rw [spinCore_events, spinName_shouldRemoveWinner, hrem]
  rfl

/-- Witness for the amended C2 at a concrete removal-enabled state. -/
theorem spin_mutation_between_reel_and_await_witness :
    (spin (fun _ => 1) (fun _ => 1) duplicateState).success = true ∧
    (spin (fun _ => 1) (fun _ => 1) duplicateState).events =
      [SlotEvent.spinStart, SlotEvent.reelMutation, SlotEvent.listHistoryMutation,
        SlotEvent.animationFinish, SlotEvent.spinEnd] :=
  spin_mutation_between_reel_and_await (fun _ => 1) (fun _ => 1) duplicateState
    (by decide) (by decide) (by decide)

/-- C5: for every draw over a non-empty participant pool, the declared
winner (the stored current player, also logged by `console.log('Result:')`)
equals the last element of the padded-and-truncated name sequence, and the
declared winning prize equals the last element of the prize sequence — for
every possible random stream, so no separate random index is drawn. -/
theorem declared_winner_eq_last (r1 r2 : Nat → Nat) (s : SlotState)
    (hn : s.nameList ≠ []) (hreel : s.reelOk = true) :
    (spin r1 r2 s).success = true ∧
    (spin r1 r2 s).state.currentPlayer =
      (buildNameSequence r1 s.nameList s.maxReelItems s.havePreviousWinner).getLast? ∧
    (spin r1 r2 s).resultLog =
      some ((buildNameSequence r1 s.nameList s.maxReelItems s.havePreviousWinner).getLast?,
        (buildPrizeSequence r2 s.luckyMoneyList s.maxReelItems s.havePreviousWinner).getLast?) := by
  rw [spin_success_unfold r1 r2 s hn hreel]
  refine ⟨rfl, ?_, rfl⟩
  rw [spinCore_state]
  split <;> simp [trimReel, applyRemoval]

/-- Witness for C5 at a concrete two-name state. -/
theorem declared_winner_eq_last_witness :
    (spin (fun _ => 1) (fun _ => 0) duplicateState).success = true ∧
    (spin (fun _ => 1) (fun _ => 0) duplicateState).state.currentPlayer =
      (buildNameSequence (fun _ => 1) duplicateState.nameList duplicateState.maxReelItems
        duplicateState.havePreviousWinner).getLast? ∧
    (spin (fun _ => 1) (fun _ => 0) duplicateState).resultLog =
      some ((buildNameSequence (fun _ => 1) duplicateState.nameList duplicateState.maxReelItems
          duplicateState.havePreviousWinner).getLast?,
        (buildPrizeSequence (fun _ => 0) duplicateState.luckyMoneyList
          duplicateState.maxReelItems duplicateState.havePreviousWinner).getLast?) :=
  declared_winner_eq_last (fun _ => 1) (fun _ => 0) duplicateState (by decide) (by decide)

/-- A removal-enabled `spinCore` commits exactly the removal/history block
followed by the reel trim. -/
theorem spinCore_removal_state (r2 : Nat → Nat) (s1 : SlotState)
    (hrem : s1.shouldRemoveWinner = true) :
    (spinCore r2 s1).state =
      trimReel (applyRemoval
        { s1 with reelItems := (s1.reelItems ++ buildPrizeSequence r2 s1.luckyMoneyList s1.maxReelItems s1.havePreviousWinner) }
        ((buildPrizeSequence r2 s1.luckyMoneyList s1.maxReelItems s1.havePreviousWinner).getLast?)) := by
  rw [spinCore_state, if_pos hrem]

/-- C7: after a removal-enabled successful `spin()` over non-empty
participant and prize lists (with a non-degenerate reel length, so that a
winner exists), the winner name occurs in the participant list exactly one
fewer time than before — only the first occurrence is removed even when
duplicates exist — and the winning prize likewise occurs exactly one fewer
time in the prize list. -/
theorem removal_decrements_counts (r1 r2 : Nat → Nat) (s : SlotState)
    (hrem : s.shouldRemoveWinner = true) (hreel : s.reelOk = true)
    (hn : s.nameList ≠ []) (hp : s.luckyMoneyList ≠ [])
    (hone : 1 ≤ s.maxReelItems - (if s.havePreviousWinner then 1 else 0)) :
    (spin r1 r2 s).success = true ∧
    (spin r1 r2 s).state.nameList.count
        (((buildNameSequence r1 s.nameList s.maxReelItems s.havePreviousWinner).getLast?).getD "") + 1
      = s.nameList.count
        (((buildNameSequence r1 s.nameList s.maxReelItems s.havePreviousWinner).getLast?).getD "") ∧
    (spin r1 r2 s).state.luckyMoneyList.count
        (((buildPrizeSequence r2 s.luckyMoneyList s.maxReelItems s.havePreviousWinner).getLast?).getD "") + 1
      = s.luckyMoneyList.count
        (((buildPrizeSequence r2 s.luckyMoneyList s.maxReelItems s.havePreviousWinner).getLast?).getD "") := by
  have hm : 1 ≤ s.maxReelItems := by
    rcases Bool.eq_false_or_eq_true s.havePreviousWinner with hb | hb <;>
      rw [hb] at hone <;> simp at hone <;> omega
  have hnne := buildNameSequence_ne_nil r1 s.nameList _ _ hn hone
  have hpne := buildPrizeSequence_ne_nil r2 s.luckyMoneyList _ _ hp hone
  have hwl := List.getLast?_eq_getLast_of_ne_nil hnne
  have hplast := List.getLast?_eq_getLast_of_ne_nil hpne
  have hwmem : (buildNameSequence r1 s.nameList s.maxReelItems s.havePreviousWinner).getLast hnne
      ∈ s.nameList :=
    buildNameSequence_mem r1 s.nameList _ _ hm _ (List.getLast_mem hnne)
  have hpmem : (buildPrizeSequence r2 s.luckyMoneyList s.maxReelItems s.havePreviousWinner).getLast hpne
      ∈ s.luckyMoneyList :=
    buildPrizeSequence_mem r2 s.luckyMoneyList _ _ hm _ (List.getLast_mem hpne)
  rw [spin_success_unfold r1 r2 s hn hreel]
  have hrem1 : ({ s with currentPlayer :=
      (buildNameSequence r1 s.nameList s.maxReelItems s.havePreviousWinner).getLast? } :
        SlotState).shouldRemoveWinner = true := hrem
  rw [spinCore_removal_state _ _ hrem1]
  refine ⟨rfl, ?_, ?_⟩
  · simp only [trimReel_nameList, applyRemoval_nameList, hwl, Option.getD_some]
    exact count_spliceRemoveFirst s.nameList _ hwmem
  · simp only [trimReel_luckyMoneyList, applyRemoval_luckyMoneyList, hplast, Option.getD_some]
    exact count_spliceRemoveFirst s.luckyMoneyList _ hpmem

/-- Witness for C7: duplicate names `["A","B","A"]` and duplicate prizes
`["X","X","Y"]` each lose exactly one occurrence of the winner/prize. -/
theorem removal_decrements_counts_witness :
    (spin (fun _ => 0) (fun _ => 2) duplicateState).success = true ∧
    (spin (fun _ => 0) (fun _ => 2) duplicateState).state.nameList.count
        (((buildNameSequence (fun _ => 0) duplicateState.nameList duplicateState.maxReelItems
          duplicateState.havePreviousWinner).getLast?).getD "") + 1
      = duplicateState.nameList.count
        (((buildNameSequence (fun _ => 0) duplicateState.nameList duplicateState.maxReelItems
          duplicateState.havePreviousWinner).getLast?).getD "") ∧
    (spin (fun _ => 0) (fun _ => 2) duplicateState).state.luckyMoneyList.count
        (((buildPrizeSequence (fun _ => 2) duplicateState.luckyMoneyList duplicateState.maxReelItems
          duplicateState.havePreviousWinner).getLast?).getD "") + 1
      = duplicateState.luckyMoneyList.count
        (((buildPrizeSequence (fun _ => 2) duplicateState.luckyMoneyList duplicateState.maxReelItems
          duplicateState.havePreviousWinner).getLast?).getD "") :=
  removal_decrements_counts (fun _ => 0) (fun _ => 2) duplicateState
    (by decide) (by decide) (by decide) (by decide) (by decide)

/-- A removal-enabled `spinCore` appends exactly one formatted history entry,
followed by the end-of-round sentinel exactly when both post-removal lists
are empty. -/
theorem spinCore_history_shape (r2 : Nat → Nat) (s1 : SlotState)
    (hrem : s1.shouldRemoveWinner = true) :
    (spinCore r2 s1).state.drawHistory =
      s1.drawHistory
        ++ [jsShow ((spinCore r2 s1).state.currentPlayer) ++ " - " ++
            jsShow ((buildPrizeSequence r2 s1.luckyMoneyList s1.maxReelItems
              s1.havePreviousWinner).getLast?)]
        ++ (if (spinCore r2 s1).state.nameList = [] ∧ (spinCore r2 s1).state.luckyMoneyList = []
            then [endSentinel] else []) := by
  rw [spinCore_removal_state r2 s1 hrem]
  simp only [trimReel_drawHistory, applyRemoval_drawHistory, trimReel_nameList,
    applyRemoval_nameList, trimReel_luckyMoneyList, applyRemoval_luckyMoneyList,
    trimReel_currentPlayer, applyRemoval_currentPlayer, List.length_eq_zero]
  split <;> simp

/-- C8: for every removal-enabled successful `spin()`, the history gains
exactly the formatted winner entry followed by the end-of-round sentinel
exactly when both lists have become empty; in particular, starting from
`names=["A"]`, `prizes=["X"]`, empty history and removal enabled, one
successful `spin()` leaves both lists empty and the history equal to
`["A - X", "-------END-------"]`. -/
theorem sentinel_history_spec (r1 r2 : Nat → Nat) (s : SlotState)
    (hrem : s.shouldRemoveWinner = true)
    (hv : ¬(s.nameList.length = 0 ∧ s.luckyMoneyList.length = 0))
    (hreel : s.reelOk = true) :
    ((spin r1 r2 s).state.drawHistory =
      s.drawHistory
        ++ [jsShow ((spin r1 r2 s).state.currentPlayer) ++ " - " ++
            jsShow ((buildPrizeSequence r2 s.luckyMoneyList s.maxReelItems
              s.havePreviousWinner).getLast?)]
        ++ (if (spin r1 r2 s).state.nameList = [] ∧ (spin r1 r2 s).state.luckyMoneyList = []
            then [endSentinel] else [])) ∧
    ((spin r1 r2 sentinelState).success = true ∧
     (spin r1 r2 sentinelState).state.nameList = [] ∧
     (spin r1 r2 sentinelState).state.luckyMoneyList = [] ∧
     (spin r1 r2 sentinelState).state.drawHistory = ["A - X", endSentinel]) := by
  constructor
  · rw [spin_eq_spinCore r1 r2 s hv hreel]
    have hrem1 : (spinName r1 s).1.shouldRemoveWinner = true := by
      rw [spinName_shouldRemoveWinner]; exact hrem
    rw [spinCore_history_shape r2 _ hrem1, spinName_drawHistory, spinName_luckyMoneyList,
      spinName_maxReelItems, spinName_havePreviousWinner]
  · have h1 : (buildNameSequence r1 ["A"] 30 false).getLast? = some "A" :=
      buildNameSequence_singleton_getLast r1 "A" 30 false (by decide)
    have h2 : (buildPrizeSequence r2 ["X"] 30 false).getLast? = some "X" :=
      buildPrizeSequence_singleton_getLast r2 "X" 30 false (by decide)
    have hsn : sentinelState.nameList ≠ [] := by decide
    rw [spin_success_unfold r1 r2 sentinelState hsn rfl]
    dsimp only [sentinelState]
    rw [h1]
    rw [spinCore_removal_state r2 _ rfl]
    refine ⟨rfl, ?_, ?_, ?_⟩
    · rw [trimReel_nameList, applyRemoval_nameList]
      dsimp only
      decide
    · rw [trimReel_luckyMoneyList, applyRemoval_luckyMoneyList]
      dsimp only
      rw [h2]
      decide
    · rw [trimReel_drawHistory, applyRemoval_drawHistory]
      dsimp only
      rw [h2]
      decide

/-- C10: a removal-enabled `spin()` over a non-empty participant list and an
empty prize list still resolves `true`: the prize sequence is empty, so the
winning prize is `undefined` (logged as `none`), the appended history entry
reads `"{winner} - undefined"`, the prize list stays empty (the splice is a
no-op on the empty list), and the winner is still removed from the
participant list. -/
theorem empty_prize_spin (r1 r2 : Nat → Nat) (s : SlotState)
    (hn : s.nameList ≠ []) (hp : s.luckyMoneyList = [])
    (hrem : s.shouldRemoveWinner = true) (hreel : s.reelOk = true)
    (hone : 1 ≤ s.maxReelItems - (if s.havePreviousWinner then 1 else 0)) :
    (spin r1 r2 s).success = true ∧
    buildPrizeSequence r2 s.luckyMoneyList s.maxReelItems s.havePreviousWinner = [] ∧
    (spin r1 r2 s).resultLog =
      some ((buildNameSequence r1 s.nameList s.maxReelItems s.havePreviousWinner).getLast?,
        none) ∧
    (spin r1 r2 s).state.luckyMoneyList = [] ∧
    (spin r1 r2 s).state.drawHistory =
      s.drawHistory
        ++ [(((buildNameSequence r1 s.nameList s.maxReelItems
              s.havePreviousWinner).getLast?).getD "") ++ " - " ++ "undefined"]
        ++ (if (spin r1 r2 s).state.nameList = [] then [endSentinel] else []) ∧
    (spin r1 r2 s).state.nameList.count
        (((buildNameSequence r1 s.nameList s.maxReelItems s.havePreviousWinner).getLast?).getD "") + 1
      = s.nameList.count
        (((buildNameSequence r1 s.nameList s.maxReelItems s.havePreviousWinner).getLast?).getD "") := by
  have hm : 1 ≤ s.maxReelItems := by
    rcases Bool.eq_false_or_eq_true s.havePreviousWinner with hb | hb <;>
      rw [hb] at hone <;> simp at hone <;> omega
  have hnne := buildNameSequence_ne_nil r1 s.nameList _ _ hn hone
  have hwl := List.getLast?_eq_getLast_of_ne_nil hnne
  have hwmem : (buildNameSequence r1 s.nameList s.maxReelItems s.havePreviousWinner).getLast hnne
      ∈ s.nameList :=
    buildNameSequence_mem r1 s.nameList _ _ hm _ (List.getLast_mem hnne)
  have hpseq : buildPrizeSequence r2 s.luckyMoneyList s.maxReelItems s.havePreviousWinner = [] := by
    rw [hp]; exact buildPrizeSequence_nil r2 _ _
  have hplast : (buildPrizeSequence r2 s.luckyMoneyList s.maxReelItems
      s.havePreviousWinner).getLast? = none := by
    rw [hpseq]; rfl
  rw [spin_success_unfold r1 r2 s hn hreel]
  have hrem1 : ({ s with currentPlayer :=
      (buildNameSequence r1 s.nameList s.maxReelItems s.havePreviousWinner).getLast? } :
        SlotState).shouldRemoveWinner = true := hrem
  rw [spinCore_removal_state _ _ hrem1]
  have hsplicep : spliceRemoveFirst s.luckyMoneyList
      ((buildPrizeSequence r2 s.luckyMoneyList s.maxReelItems
        s.havePreviousWinner).getLast?) = [] := by
    rw [hplast, hp]
    rfl
  refine ⟨rfl, hpseq, ?_, ?_, ?_, ?_⟩
  · rw [spinCore_resultLog]
    dsimp only
    rw [hplast]
  · rw [trimReel_luckyMoneyList, applyRemoval_luckyMoneyList]
    dsimp only
    exact hsplicep
  · rw [trimReel_drawHistory, applyRemoval_drawHistory, trimReel_nameList, applyRemoval_nameList]
    dsimp only
    rw [hplast, hwl]
    have hsplicep2 : spliceRemoveFirst s.luckyMoneyList (none : Option String) = [] := by
      rw [hp]; rfl
    rw [hsplicep2]
    simp only [jsShow, Option.getD_some, List.length_nil, List.length_eq_zero, and_true]
    split <;> simp
  · rw [trimReel_nameList, applyRemoval_nameList]
    dsimp only
    rw [hwl]
    simp only [Option.getD_some]
    exact count_spliceRemoveFirst s.nameList _ hwmem

/-- Witness for C8 at the sentinel scenario state with a concrete stream. -/
theorem sentinel_history_spec_witness :
    ((spin (fun _ => 0) (fun _ => 0) sentinelState).state.drawHistory =
      sentinelState.drawHistory
        ++ [jsShow ((spin (fun _ => 0) (fun _ => 0) sentinelState).state.currentPlayer) ++ " - " ++
            jsShow ((buildPrizeSequence (fun _ => 0) sentinelState.luckyMoneyList
              sentinelState.maxReelItems sentinelState.havePreviousWinner).getLast?)]
        ++ (if (spin (fun _ => 0) (fun _ => 0) sentinelState).state.nameList = [] ∧
              (spin (fun _ => 0) (fun _ => 0) sentinelState).state.luckyMoneyList = []
            then [endSentinel] else [])) ∧
    ((spin (fun _ => 0) (fun _ => 0) sentinelState).success = true ∧
     (spin (fun _ => 0) (fun _ => 0) sentinelState).state.nameList = [] ∧
     (spin (fun _ => 0) (fun _ => 0) sentinelState).state.luckyMoneyList = [] ∧
     (spin (fun _ => 0) (fun _ => 0) sentinelState).state.drawHistory = ["A - X", endSentinel]) :=
  sentinel_history_spec (fun _ => 0) (fun _ => 0) sentinelState (by decide) (by decide) rfl

/-- Witness for C10 at a concrete state with two names and no prizes. -/
theorem empty_prize_spin_witness :
    (spin (fun _ => 0) (fun _ => 0) noPrizeState).success = true ∧
    buildPrizeSequence (fun _ => 0) noPrizeState.luckyMoneyList noPrizeState.maxReelItems
      noPrizeState.havePreviousWinner = [] ∧
    (spin (fun _ => 0) (fun _ => 0) noPrizeState).resultLog =
      some ((buildNameSequence (fun _ => 0) noPrizeState.nameList noPrizeState.maxReelItems
        noPrizeState.havePreviousWinner).getLast?, none) ∧
    (spin (fun _ => 0) (fun _ => 0) noPrizeState).state.luckyMoneyList = [] ∧
    (spin (fun _ => 0) (fun _ => 0) noPrizeState).state.drawHistory =
      noPrizeState.drawHistory
        ++ [(((buildNameSequence (fun _ => 0) noPrizeState.nameList noPrizeState.maxReelItems
              noPrizeState.havePreviousWinner).getLast?).getD "") ++ " - " ++ "undefined"]
        ++ (if (spin (fun _ => 0) (fun _ => 0) noPrizeState).state.nameList = []
            then [endSentinel] else []) ∧
    (spin (fun _ => 0) (fun _ => 0) noPrizeState).state.nameList.count
        (((buildNameSequence (fun _ => 0) noPrizeState.nameList noPrizeState.maxReelItems
          noPrizeState.havePreviousWinner).getLast?).getD "") + 1
      = noPrizeState.nameList.count
        (((buildNameSequence (fun _ => 0) noPrizeState.nameList noPrizeState.maxReelItems
          noPrizeState.havePreviousWinner).getLast?).getD "") :=
  empty_prize_spin (fun _ => 0) (fun _ => 0) noPrizeState
    (by decide) rfl rfl rfl (by decide)

end RandomNamePicker
